import Mathlib

/-!
Shallow embedding of the fetch / group / sort pipeline of the stargazer
repository.

The Go sources embedded here:
* stars code (DefaultFetchStars, loadRateLimitInfo, saveRateLimitInfo,
  isRateLimitError, determineLanguage, determineLicense, the Star record and
  the GraphQL query shape);
* main code (fetchAndProcessStars, isIgnored, testStars, Config).

Modelling conventions:
* timestamps (Go time.Time) are nanosecond counts (Nat);
* the remote GraphQL endpoint is an oracle: a list of QueryResponse values
  consumed one per client.Query call (a rate-limited retry consumes the next
  entry, which stands for re-issuing the same query);
* the run of DefaultFetchStars is a recursion over that oracle list together
  with an explicit logical clock; when the oracle list runs out before the
  loop terminates the model returns none (the run is not determined);
* Go integer division time.Second / rateLimit becomes Nat division;
* string lowercasing (Go strings.ToLower) is strToLower, per-character case
  folding, which agrees with Go on the inputs that appear here;
* the rate-limit persistence file holds the JSON document tree; the byte
  serialization performed by the Go standard library encoding/json package
  (code outside this repository) is treated as a faithful transport of the
  tree, and the reset_at timestamp leaf is carried as its numeric value
  (the spec allows an ISO-8601 "or equivalent" timestamp encoding).
-/

namespace Stargazer

/-- Go time.Time modelled as nanoseconds since an epoch. -/
abbrev GoTime := Nat

/-- RateLimitInfo from the stars code: the persisted remote quota window. -/
structure RateLimitInfo where
  limit : Int
  remaining : Int
  resetAt : GoTime
deriving Repr, DecidableEq

/-- The LicenseInfo sub-record of the GraphQL query node. -/
structure LicenseInfo where
  name : String
  nickname : String
  url : String
deriving Repr, DecidableEq

/-- The repository node of one edge of the GraphQL query result.  The
languages field is the list of language names already ordered by size
descending, as the query requests them. -/
structure Node where
  description : String
  languages : List String
  licenseInfo : LicenseInfo
  isArchived : Bool
  isPrivate : Bool
  name : String
  nameWithOwner : String
  stargazerCount : Nat
  url : String
deriving Repr, DecidableEq

/-- One edge of the starredRepositories connection. -/
structure Edge where
  starredAt : GoTime
  node : Node
deriving Repr, DecidableEq

/-- The PageInfo sub-record of the query result. -/
structure PageInfo where
  endCursor : String
  hasNextPage : Bool
deriving Repr, DecidableEq

/-- One successful page of the starredRepositories connection. -/
structure Page where
  edges : List Edge
  pageInfo : PageInfo
deriving Repr, DecidableEq

/-- What one client.Query call leaves behind: the rate-limit section of the
query struct, and either an error string or the page payload. -/
structure QueryResponse where
  rateLimit : RateLimitInfo
  result : Except String Page
deriving Repr

/-- Star represents a starred GitHub repository with its details
(field for field the Go struct). -/
structure Star where
  url : String
  name : String
  nameWithOwner : String
  description : String
  license : String
  licenseUrl : String
  stars : Nat
  archived : Bool
  starredAt : GoTime
deriving Repr, DecidableEq

/-- The map from language label to bucket of stars, modelled as an
association list in insertion order with unique keys. -/
abbrev StarMap := List (String × List Star)

/-- Go map read stars[k] (empty bucket when the key is absent). -/
def mapGet (m : StarMap) (k : String) : List Star :=
  match m with
  | [] => []
  | (a, b) :: rest => if a = k then b else mapGet rest k

/-- The Go idiom: if the key is absent create an empty bucket, then append
the star to the bucket (stars[lng] = append(stars[lng], s)). -/
def mapInsertAppend (m : StarMap) (k : String) (x : Star) : StarMap :=
  match m with
  | [] => [(k, [x])]
  | (a, b) :: rest =>
    if a = k then (a, b ++ [x]) :: rest else (a, b) :: mapInsertAppend rest k x

/-- Whether pat occurs at the head of the character list. -/
def leadMatch : List Char → List Char → Bool
  | [], _ => true
  | _ :: _, [] => false
  | a :: p, b :: l => a = b && leadMatch p l

/-- Whether pat occurs as a contiguous run anywhere in the character list
(Go strings.Contains). -/
def subMatch (pat : List Char) (l : List Char) : Bool :=
  match l with
  | [] => leadMatch pat []
  | _ :: rest => leadMatch pat l || subMatch pat rest

/-- isRateLimitError from the stars code: the error text contains the fixed
phrase. -/
def isRateLimitError (e : String) : Bool :=
  subMatch "API rate limit exceeded".toList e.toList

/-- Go strings.ToLower, modelled as per-character case folding over the
characters of the string. -/
def strToLower (s : String) : String := ⟨s.data.map Char.toLower⟩

/-- determineLanguage from the stars code, over the list of language names of
the query edges (first name when non-empty, otherwise Unknown). -/
def determineLanguage (languages : List String) : String :=
  match languages with
  | [] => "Unknown"
  | lang :: _ => lang

/-- determineLicense from the stars code: the nickname when non-empty, else
the name unless it is empty or lowercases to other, else the empty string. -/
def determineLicense (licenseInfo : LicenseInfo) : String :=
  if licenseInfo.nickname ≠ "" then licenseInfo.nickname
  else if licenseInfo.name ≠ "" ∧ strToLower licenseInfo.name ≠ "other" then
    licenseInfo.name
  else ""

/-- isIgnored from the main code.  The Go function reads the package-level
ignored slice; the model passes it explicitly. -/
def isIgnored (ignored : List String) (name : String) : Bool :=
  if ignored.length = 0 then false
  else ignored.any fun i => strToLower i == strToLower name

/-- The normalized record the fetch loop appends for one qualifying edge. -/
def mkStar (e : Edge) : Star :=
  { url := e.node.url
    name := e.node.name
    nameWithOwner := e.node.nameWithOwner
    description := e.node.description
    license := determineLicense e.node.licenseInfo
    licenseUrl := e.node.licenseInfo.url
    stars := e.node.stargazerCount
    archived := e.node.isArchived
    starredAt := e.starredAt }

/-- The body of the per-edge loop of DefaultFetchStars: skip private or
ignored edges, otherwise count the edge and append its normalized record to
the bucket of its determined language. -/
def processEdges (ignored : List String) (edges : List Edge)
    (stars : StarMap) (total : Nat) : StarMap × Nat :=
  match edges with
  | [] => (stars, total)
  | e :: rest =>
    if e.node.isPrivate || isIgnored ignored e.node.nameWithOwner then
      processEdges ignored rest stars total
    else
      processEdges ignored rest
        (mapInsertAppend stars (determineLanguage e.node.languages) (mkStar e))
        (total + 1)

/-- The overall operation deadline: context.WithTimeout of three minutes,
in nanoseconds from the start of the run. -/
def deadlineNs : Nat := 180 * 1000000000

/-- The token interval of the local limiter, rate.Every of
time.Second / rateLimit (Go integer division of nanoseconds). -/
def intervalNs (rateLimit : Nat) : Nat := 1000000000 / rateLimit

/-- The designated timeout / cancellation error of the context. -/
def timeoutError : String := "context deadline exceeded"

/-- The mutable state of the fetch loop: the logical clock, the time the next
limiter token becomes free, the pagination cursor variable, and the
accumulated buckets and included-count. -/
structure FetchState where
  clock : Nat
  nextFree : Nat
  cursor : String
  stars : StarMap
  total : Nat
deriving Repr, DecidableEq

/-- One run of the loop of DefaultFetchStars over the oracle list of query
responses.  Each iteration first waits on the local limiter (failing with the
timeout error when the token time reaches the deadline), then consumes the
next oracle entry as the query result: a rate-limited error sleeps until the
reported reset time and retries without advancing the cursor; any other error
returns it with the accumulated buckets and count; a successful page is
folded into the state and pagination continues while hasNextPage holds. -/
def fetchLoop (ignored : List String) (rateLimit : Nat) :
    List QueryResponse → FetchState → Option (StarMap × Nat × Option String)
  | script, st =>
    if deadlineNs ≤ max st.clock st.nextFree then
      some (st.stars, st.total, some timeoutError)
    else
      match script with
      | [] => none
      | r :: rest =>
        let t := max st.clock st.nextFree
        match r.result with
        | .error e =>
          if isRateLimitError e then
            fetchLoop ignored rateLimit rest
              { st with clock := max t r.rateLimit.resetAt
                        nextFree := t + intervalNs rateLimit }
          else
            some (st.stars, st.total, some e)
        | .ok page =>
          let p := processEdges ignored page.edges st.stars st.total
          if page.pageInfo.hasNextPage then
            fetchLoop ignored rateLimit rest
              { st with clock := t
                        nextFree := t + intervalNs rateLimit
                        cursor := page.pageInfo.endCursor
                        stars := p.1
                        total := p.2 }
          else
            some (p.1, p.2, none)

/-- The state DefaultFetchStars starts from: clock zero, one limiter token
immediately available, empty cursor, no buckets, count zero. -/
def initialFetchState : FetchState :=
  { clock := 0, nextFree := 0, cursor := "", stars := [], total := 0 }

/-- DefaultFetchStars: run the fetch loop from the initial state.  The user
and token arguments of the Go function only configure the HTTP client and are
absorbed into the oracle; the persistence of the rate-limit window is
modelled separately by saveRateLimitInfo / loadRateLimitInfo. -/
def DefaultFetchStars (ignored : List String) (rateLimit : Nat)
    (script : List QueryResponse) : Option (StarMap × Nat × Option String) :=
  fetchLoop ignored rateLimit script initialFetchState

/-- The zero value a Go make of a Star slice fills in. -/
def zeroValueStar : Star :=
  { url := "", name := "", nameWithOwner := "", description := ""
    license := "", licenseUrl := "", stars := 0, archived := false
    starredAt := 0 }

/-- testStars from the main code, with the package-level ignored slice passed
explicitly and the several time.Now() calls modelled by one instant.  The go
and markdown buckets are made with length one and their single cell is only
assigned when the record is not ignored; the other buckets are built by
append; the returned total is the literal 4 of the source. -/
def testStars (ignored : List String) (now : GoTime) : StarMap × Nat :=
  let s1 : Star :=
    { url := "https://github.com/jmelfi/stargazer"
      name := "stargazer"
      nameWithOwner := "jmelfi/stargazer"
      description := "Creates awesome lists of your starred repositories"
      license := "MIT License", licenseUrl := "", stars := 1
      archived := false, starredAt := now }
  let goBucket := if isIgnored ignored s1.nameWithOwner then [zeroValueStar] else [s1]
  let s2 : Star :=
    { url := "https://github.com/jmelfi/stars"
      name := "stars"
      nameWithOwner := "jmelfi/stars"
      description := "A list of awesome repositories I starred"
      license := "MIT License", licenseUrl := "", stars := 1
      archived := false, starredAt := now }
  let mdBucket := if isIgnored ignored s2.nameWithOwner then [zeroValueStar] else [s2]
  let s3 : Star :=
    { url := "https://github.com/jmelfi/test"
      name := "test", nameWithOwner := "jmelfi/test", description := ""
      license := "MIT License", licenseUrl := "", stars := 1
      archived := false, starredAt := now }
  let s4 : Star :=
    { url := "https://github.com/jmelfi/test_2"
      name := "test_2", nameWithOwner := "rverst/test_2"
      description := "Some description"
      license := "", licenseUrl := "", stars := 1
      archived := false, starredAt := now }
  let s5 : Star :=
    { url := "https://github.com/jmelfi/test_3"
      name := "test_3", nameWithOwner := "jmelfi/test_3", description := ""
      license := "", licenseUrl := "", stars := 1
      archived := false, starredAt := now }
  ([("go", goBucket), ("markdown", mdBucket),
    ("C#", [s3, s5]), ("C++", [s4])], 4)

/-- Config from the config code (field for field the Go struct). -/
structure Config where
  githubUser : String
  githubToken : String
  outputFile : String
  outputFormat : String
  ignoreRepos : List String
  withTOC : Bool
  withStars : Bool
  withLicense : Bool
  withBackToTop : Bool
  test : Bool
  rateLimit : Nat
deriving Repr, DecidableEq

/-- The ordering the sort stage uses, as a proposition: ascending by the
lowercase of the owner/name key, compared lexicographically character by
character (Go compares the lowercased strings byte-wise, which on UTF-8
agrees with the code-point order used here). -/
def starLE (a b : Star) : Prop :=
  (strToLower a.nameWithOwner).data ≤ (strToLower b.nameWithOwner).data

instance : DecidableRel starLE := fun a b =>
  inferInstanceAs (Decidable ((strToLower a.nameWithOwner).data ≤ (strToLower b.nameWithOwner).data))

instance : IsTotal Star starLE :=
  ⟨fun a b => le_total (strToLower a.nameWithOwner).data (strToLower b.nameWithOwner).data⟩

instance : IsTrans Star starLE := ⟨fun _ _ _ h1 h2 => le_trans h1 h2⟩

/-- The in-place sort.Slice of one bucket.  Go sort.Slice is an unspecified
comparison sort; it is modelled as insertion sort by the same comparator. -/
def sortStars (l : List Star) : List Star := List.insertionSort starLE l

/-- The grouping-and-sort stage applied to every bucket of the map. -/
def sortBuckets (m : StarMap) : StarMap :=
  m.map fun p => (p.1, sortStars p.2)

/-- fetchAndProcessStars from the main code: take the buckets from testStars
on the test path or from DefaultFetchStars otherwise (wrapping a fetch error
and dropping the partial results to nil and zero), then sort every bucket. -/
def fetchAndProcessStars (config : Config) (ignored : List String)
    (now : GoTime) (script : List QueryResponse) :
    Option (StarMap × Nat × Option String) :=
  if config.test then
    let p := testStars ignored now
    some (sortBuckets p.1, p.2, none)
  else
    match DefaultFetchStars ignored config.rateLimit script with
    | none => none
    | some (_, _, some e) => some ([], 0, some ("failed to fetch stars: " ++ e))
    | some (s, t, none) => some (sortBuckets s, t, none)

/-- The JSON document tree the rate-limit persistence file holds. -/
inductive Jsonv where
  | num (n : Int)
  | str (s : String)
  | obj (fields : List (String × Jsonv))

/-- Lookup of one key of a JSON object. -/
def jsonLookup (fields : List (String × Jsonv)) (k : String) : Option Jsonv :=
  match fields with
  | [] => none
  | (a, v) :: rest => if a = k then some v else jsonLookup rest k

/-- json.Marshal of RateLimitInfo: an object with the three tagged fields,
the timestamp carried as its numeric value. -/
def marshalRateLimitInfo (info : RateLimitInfo) : Jsonv :=
  .obj [("limit", .num info.limit), ("remaining", .num info.remaining),
        ("reset_at", .num (info.resetAt : Int))]

/-- json.Unmarshal into RateLimitInfo: read each tagged field of the object,
leaving the zero value when the key is absent, failing on a non-object
document or an ill-typed field. -/
def unmarshalRateLimitInfo (j : Jsonv) : Except String RateLimitInfo :=
  match j with
  | .obj fields =>
    let readInt : Option Jsonv → Except String Int := fun v =>
      match v with
      | none => .ok 0
      | some (.num n) => .ok n
      | some _ => .error "json: cannot unmarshal field"
    match readInt (jsonLookup fields "limit"),
          readInt (jsonLookup fields "remaining"),
          readInt (jsonLookup fields "reset_at") with
    | .ok l, .ok r, .ok t => .ok { limit := l, remaining := r, resetAt := t.toNat }
    | _, _, _ => .error "json: cannot unmarshal field"
  | _ => .error "json: cannot unmarshal value"

/-- The durable state of the persistence file: absent, or holding one
document. -/
abbrev FileState := Option Jsonv

/-- saveRateLimitInfo: marshal the window and overwrite the file with it. -/
def saveRateLimitInfo (info : RateLimitInfo) (_fs : FileState) : FileState :=
  some (marshalRateLimitInfo info)

/-- loadRateLimitInfo: a missing file is the read error of os.ReadFile,
otherwise unmarshal the document. -/
def loadRateLimitInfo (fs : FileState) : Except String RateLimitInfo :=
  match fs with
  | none => .error "open rate_limit_info.json: no such file or directory"
  | some j => unmarshalRateLimitInfo j

/-! ### Helper lemmas -/

/-- Once the limiter token time reaches the deadline, the loop returns the
timeout error together with the accumulated buckets and count. -/
lemma fetchLoop_timeout_eq (ignored : List String) (rateLimit : Nat)
    (script : List QueryResponse) (st : FetchState)
    (h : deadlineNs ≤ max st.clock st.nextFree) :
    fetchLoop ignored rateLimit script st =
      some (st.stars, st.total, some timeoutError) := by
  rw [fetchLoop.eq_def]
  simp [h]

/-- Reading a bucket after the append-to-bucket update. -/
lemma mapGet_mapInsertAppend (m : StarMap) (k kq : String) (x : Star) :
    mapGet (mapInsertAppend m k x) kq =
      if k = kq then mapGet m kq ++ [x] else mapGet m kq := by
  induction m with
  | nil =>
    by_cases h : k = kq <;> simp [mapInsertAppend, mapGet, h]
  | cons p rest ih =>
    obtain ⟨a, b⟩ := p
    by_cases hak : a = k
    · subst hak
      by_cases hq : a = kq <;> simp [mapInsertAppend, mapGet, hq]
    · by_cases hq : a = kq
      · subst hq
        have hk : k ≠ a := fun h => hak h.symm
        simp [mapInsertAppend, mapGet, hak, hk]
      · simp [mapInsertAppend, mapGet, hak, hq, ih]

/-- Processing more edges never removes a star already present in a
bucket. -/
lemma processEdges_mono (ignored : List String) (edges : List Edge)
    (stars : StarMap) (total : Nat) (k : String) (x : Star)
    (hx : x ∈ mapGet stars k) :
    x ∈ mapGet (processEdges ignored edges stars total).1 k := by
  induction edges generalizing stars total with
  | nil => exact hx
  | cons a rest ih =>
    rw [processEdges]
    by_cases h : (a.node.isPrivate || isIgnored ignored a.node.nameWithOwner) = true
    · simp only [h, if_true]
      exact ih _ _ hx
    · simp only [eq_false_of_ne_true h, if_false]
      apply ih
      rw [mapGet_mapInsertAppend]
      by_cases hk : determineLanguage a.node.languages = k
      · simp only [hk, if_true]
        exact List.mem_append_left _ hx
      · simp only [hk, if_false]
        exact hx

/-- Every qualifying edge contributes its normalized record to the bucket of
its determined language. -/
lemma processEdges_mem (ignored : List String) (edges : List Edge)
    (stars : StarMap) (total : Nat) (e : Edge)
    (hmem : e ∈ edges)
    (hskip : (e.node.isPrivate || isIgnored ignored e.node.nameWithOwner) = false) :
    mkStar e ∈ mapGet (processEdges ignored edges stars total).1
      (determineLanguage e.node.languages) := by
  induction edges generalizing stars total with
  | nil => cases hmem
  | cons a rest ih =>
    rw [processEdges]
    rcases List.mem_cons.mp hmem with h | h
    · subst h
      simp only [hskip, if_false, Bool.false_eq_true]
      apply processEdges_mono
      rw [mapGet_mapInsertAppend]
      simp
    · by_cases ha : (a.node.isPrivate || isIgnored ignored a.node.nameWithOwner) = true
      · simp only [ha, if_true]
        exact ih _ _ h
      · simp only [eq_false_of_ne_true ha, if_false, Bool.false_eq_true]
        exact ih _ _ h

/-- Sorting a bucket permutes it. -/
lemma sortStars_perm (l : List Star) : (sortStars l).Perm l :=
  List.perm_insertionSort starLE l

/-- A sorted bucket is ascending by the lowercase of the owner/name key. -/
lemma sortStars_sorted (l : List Star) : List.Sorted starLE (sortStars l) :=
  List.sorted_insertionSort starLE l

/-- Sorting the buckets leaves the language keys unchanged. -/
lemma sortBuckets_keys (m : StarMap) :
    (sortBuckets m).map Prod.fst = m.map Prod.fst := by
  induction m with
  | nil => rfl
  | cons p rest ih => simp [sortBuckets]

/-- Reading a bucket of the sorted map is sorting the bucket of the original
map. -/
lemma mapGet_sortBuckets (m : StarMap) (k : String) :
    mapGet (sortBuckets m) k = sortStars (mapGet m k) := by
  induction m with
  | nil => simp [sortBuckets, mapGet, sortStars]
  | cons p rest ih =>
    obtain ⟨a, b⟩ := p
    by_cases h : a = k
    · simp [sortBuckets, mapGet, h]
    · simpa [sortBuckets, mapGet, h] using ih

/-! ### Claim theorems -/

/-- C5: for every ignore-list configuration L and candidate name N,
isIgnored returns true exactly when some entry of L equals N under
case-insensitive exact-string comparison, and for the empty list it always
returns false. -/
theorem isIgnored_spec (L : List String) (N : String) :
    isIgnored [] N = false ∧
    (isIgnored L N = true ↔ ∃ i ∈ L, strToLower i = strToLower N) := by
  constructor
  · rfl
  · unfold isIgnored
    cases L with
    | nil => simp
    | cons a l => simp [List.any_eq_true]

/-- Witness for C5 at concrete inputs: the empty list ignores nothing and a
differently-cased entry still matches. -/
theorem isIgnored_spec_witness :
    isIgnored [] "repo" = false ∧ isIgnored ["Repo1"] "repo1" = true :=
  ⟨(isIgnored_spec [] "repo").1,
   (isIgnored_spec ["Repo1"] "repo1").2.mpr ⟨"Repo1", by decide, by decide⟩⟩

/-- C6: determineLicense returns the nickname whenever it is non-empty,
regardless of the name; with an empty nickname it returns the name unless the
name is empty or case-insensitively equals other, in which case it returns
the empty string. -/
theorem determineLicense_spec (li : LicenseInfo) :
    (li.nickname ≠ "" → determineLicense li = li.nickname) ∧
    (li.nickname = "" → li.name ≠ "" → strToLower li.name ≠ "other" →
      determineLicense li = li.name) ∧
    (li.nickname = "" → (li.name = "" ∨ strToLower li.name = "other") →
      determineLicense li = "") := by
  refine ⟨fun h => ?_, fun h h2 h3 => ?_, fun h h2 => ?_⟩
  · simp [determineLicense, h]
  · simp [determineLicense, h, h2, h3]
  · rcases h2 with h2 | h2 <;> simp [determineLicense, h, h2]

/-- Witness for C6 at concrete inputs: a nickname wins over any name, and a
name lowercasing to other with no nickname yields the empty license. -/
theorem determineLicense_spec_witness :
    determineLicense { name := "Apache License 2.0", nickname := "GNU GPLv3", url := "" } = "GNU GPLv3" ∧
    determineLicense { name := "Other", nickname := "", url := "" } = "" :=
  ⟨(determineLicense_spec _).1 (by decide),
   (determineLicense_spec _).2.2 rfl (Or.inr (by decide))⟩

/-- C7: determineLanguage returns Unknown on an empty reported language list
and otherwise the first language of the size-ordered list. -/
theorem determineLanguage_spec (ls : List String) :
    (ls = [] → determineLanguage ls = "Unknown") ∧
    (∀ x xs, ls = x :: xs → determineLanguage ls = x) := by
  constructor
  · intro h; subst h; rfl
  · intro x xs h; subst h; rfl

/-- Witness for C7 at concrete inputs. -/
theorem determineLanguage_spec_witness :
    determineLanguage [] = "Unknown" ∧ determineLanguage ["Go", "C"] = "Go" :=
  ⟨(determineLanguage_spec []).1 rfl,
   (determineLanguage_spec ["Go", "C"]).2 "Go" ["C"] rfl⟩

/-- C9: saving any RateLimitWindow with the state store and loading it back
yields the same window, in any prior file state. -/
theorem rateLimitWindow_roundtrip (info : RateLimitInfo) (fs : FileState) :
    loadRateLimitInfo (saveRateLimitInfo info fs) = .ok info := by
  cases info
  rfl

/-- C2: when the next query fails with an error that is not remote quota
exhaustion (and the limiter wait itself succeeds), the fetch returns at once
with that error and the buckets and count accumulated so far; the remaining
oracle entries are arbitrary and unused, so the page is not retried and no
further page is fetched. -/
theorem fetch_aborts_on_nonquota_failure (ignored : List String)
    (rateLimit : Nat) (st : FetchState) (r : QueryResponse)
    (rest : List QueryResponse) (e : String)
    (hwait : max st.clock st.nextFree < deadlineNs)
    (herr : r.result = .error e)
    (hnrl : isRateLimitError e = false) :
    fetchLoop ignored rateLimit (r :: rest) st =
      some (st.stars, st.total, some e) := by
  rw [fetchLoop.eq_def]
  simp [Nat.not_le.mpr hwait, herr, hnrl]

/-- A state one successful page in: one record in one bucket, count one. -/
def stateC2 : FetchState :=
  { clock := 0, nextFree := 200000000, cursor := "c1"
    stars := [("Go", [{ url := "https://github.com/u/repo1", name := "repo1"
                        nameWithOwner := "u/repo1", description := "d"
                        license := "MIT", licenseUrl := "", stars := 10
                        archived := false, starredAt := 100 }])]
    total := 1 }

/-- A query response failing with a non-quota error. -/
def responseC2 : QueryResponse :=
  { rateLimit := { limit := 5000, remaining := 4999, resetAt := 0 }
    result := .error "non-200 OK status code: 401 Unauthorized" }

/-- Witness for C2: from the concrete mid-run state, the failing query
returns the partial bucket and count together with the error. -/
theorem fetch_aborts_on_nonquota_failure_witness :
    fetchLoop [] 5 [responseC2] stateC2 =
      some (stateC2.stars, stateC2.total,
            some "non-200 OK status code: 401 Unauthorized") :=
  fetch_aborts_on_nonquota_failure [] 5 stateC2 responseC2 [] _
    (by decide) rfl (by decide)

/-- The repository record of the first page of the C3 counterexample run. -/
def edgeC3 : Edge :=
  { starredAt := 100
    node := { description := "d", languages := ["Go"]
              licenseInfo := { name := "MIT License", nickname := "MIT"
                               url := "https://github.com/u/repo1/license" }
              isArchived := false, isPrivate := false
              name := "repo1", nameWithOwner := "u/repo1"
              stargazerCount := 10, url := "https://github.com/u/repo1" } }

/-- First oracle entry of the C3 run: a successful page with a next page. -/
def page1C3 : QueryResponse :=
  { rateLimit := { limit := 5000, remaining := 4999, resetAt := 0 }
    result := .ok { edges := [edgeC3]
                    pageInfo := { endCursor := "c1", hasNextPage := true } } }

/-- Second oracle entry of the C3 run: quota exhaustion whose reported reset
time lies past the operation deadline, so the retry wait reaches the
deadline. -/
def quotaC3 : QueryResponse :=
  { rateLimit := { limit := 5000, remaining := 0, resetAt := deadlineNs + 5 }
    result := .error "API rate limit exceeded" }

/-- C3 counterexample: a run in which the deadline elapses during the fetch
(while suspended for the quota reset) returns the timeout error TOGETHER
WITH the accumulated bucket and count — the partial results are not
discarded by the fetch, contradicting the claim that the caller receives no
accumulated buckets or count alongside the error. -/
theorem deadline_discards_partials_counterexample :
    DefaultFetchStars [] 5 [page1C3, quotaC3] =
      some ([("Go", [mkStar edgeC3])], 1, some timeoutError) ∧
    ([("Go", [mkStar edgeC3])] : StarMap) ≠ [] ∧ (1 : Nat) ≠ 0 :=
  ⟨by decide, by decide, by decide⟩

/-- C3 amended: whenever the deadline has been reached when the loop next
waits on the limiter, the fetch surfaces the timeout error together with
(not instead of) the buckets and count accumulated so far; the partial
results are discarded only by the caller fetchAndProcessStars, which maps
any fetch error to an empty map and zero count. -/
theorem deadline_returns_partials (ignored : List String) (rateLimit : Nat)
    (script : List QueryResponse) (st : FetchState)
    (h : deadlineNs ≤ max st.clock st.nextFree) :
    fetchLoop ignored rateLimit script st =
      some (st.stars, st.total, some timeoutError) :=
  fetchLoop_timeout_eq ignored rateLimit script st h

/-- Witness for the amended C3 at a concrete state whose clock sits at the
deadline with a nonempty accumulated bucket. -/
theorem deadline_returns_partials_witness :
    fetchLoop [] 5 [] { clock := deadlineNs, nextFree := 0, cursor := "c1"
                        stars := stateC2.stars, total := 1 } =
      some (stateC2.stars, 1, some timeoutError) :=
  deadline_returns_partials [] 5 []
    { clock := deadlineNs, nextFree := 0, cursor := "c1"
      stars := stateC2.stars, total := 1 } (by decide)

/-- C4: when the next query fails with remote quota exhaustion (and the
limiter wait succeeds), the fetch suspends until the reported reset time —
the clock becomes the maximum of the current time and the reported reset
time — and re-enters the loop with the cursor, buckets and count unchanged,
so the same page is retried; and if that suspension has reached the overall
deadline, the next limiter wait aborts the operation with the timeout error
instead of continuing. -/
theorem quota_retry_same_page (ignored : List String) (rateLimit : Nat)
    (st : FetchState) (r : QueryResponse) (rest : List QueryResponse)
    (e : String)
    (hwait : max st.clock st.nextFree < deadlineNs)
    (herr : r.result = .error e)
    (hrl : isRateLimitError e = true) :
    fetchLoop ignored rateLimit (r :: rest) st =
      fetchLoop ignored rateLimit rest
        { st with clock := max (max st.clock st.nextFree) r.rateLimit.resetAt
                  nextFree := max st.clock st.nextFree + intervalNs rateLimit } ∧
    (deadlineNs ≤ max (max (max st.clock st.nextFree) r.rateLimit.resetAt)
        (max st.clock st.nextFree + intervalNs rateLimit) →
      fetchLoop ignored rateLimit rest
        { st with clock := max (max st.clock st.nextFree) r.rateLimit.resetAt
                  nextFree := max st.clock st.nextFree + intervalNs rateLimit } =
        some (st.stars, st.total, some timeoutError)) := by
  constructor
  · conv_lhs => rw [fetchLoop.eq_def]
    simp [Nat.not_le.mpr hwait, herr, hrl]
  · intro h
    exact fetchLoop_timeout_eq _ _ _ _ h

/-- Witness for C4: a concrete quota-exhausted response whose reset time
lies past the deadline, from the concrete mid-run state. -/
theorem quota_retry_same_page_witness :
    (fetchLoop [] 5 [quotaC3, responseC2] stateC2 =
      fetchLoop [] 5 [responseC2]
        { stateC2 with
            clock := max (max stateC2.clock stateC2.nextFree) quotaC3.rateLimit.resetAt
            nextFree := max stateC2.clock stateC2.nextFree + intervalNs 5 }) ∧
    (deadlineNs ≤ max (max (max stateC2.clock stateC2.nextFree) quotaC3.rateLimit.resetAt)
        (max stateC2.clock stateC2.nextFree + intervalNs 5) →
      fetchLoop [] 5 [responseC2]
        { stateC2 with
            clock := max (max stateC2.clock stateC2.nextFree) quotaC3.rateLimit.resetAt
            nextFree := max stateC2.clock stateC2.nextFree + intervalNs 5 } =
        some (stateC2.stars, stateC2.total, some timeoutError)) :=
  quota_retry_same_page [] 5 stateC2 quotaC3 [responseC2] _
    (by decide) rfl (by decide)

/-- C8: whenever the fetch stage (the test-data path or the real-fetch path,
matching the branching of fetchAndProcessStars) yields a map m0 and count t
without error, fetchAndProcessStars returns exactly the bucket-sorted map
with the same count, its language keys are those of m0, and every returned
bucket is a permutation of the corresponding bucket of m0 that is ascending
by the lowercase of the owner/name key. -/
theorem fetchAndProcess_sorted (config : Config) (ignored : List String)
    (now : GoTime) (script : List QueryResponse) (m0 : StarMap) (t : Nat)
    (h : (if config.test then
            some ((testStars ignored now).1, (testStars ignored now).2,
                  (none : Option String))
          else DefaultFetchStars ignored config.rateLimit script) =
         some (m0, t, none)) :
    fetchAndProcessStars config ignored now script =
      some (sortBuckets m0, t, none) ∧
    (sortBuckets m0).map Prod.fst = m0.map Prod.fst ∧
    (∀ k, (mapGet (sortBuckets m0) k).Perm (mapGet m0 k)) ∧
    (∀ k, List.Sorted starLE (mapGet (sortBuckets m0) k)) := by
  refine ⟨?_, sortBuckets_keys m0,
    fun k => by rw [mapGet_sortBuckets]; exact sortStars_perm _,
    fun k => by rw [mapGet_sortBuckets]; exact sortStars_sorted _⟩
  unfold fetchAndProcessStars
  by_cases hc : config.test
  · simp only [hc, if_true, Option.some.injEq, Prod.mk.injEq, and_true] at h
    simp only [hc, if_true]
    rw [h.1, h.2]
  · rw [if_neg hc] at h
    rw [if_neg hc, h]

/-- The configuration of the C8 witness run: the test path. -/
def configC8 : Config :=
  { githubUser := "", githubToken := "", outputFile := "README.md"
    outputFormat := "list", ignoreRepos := [], withTOC := true
    withStars := true, withLicense := true, withBackToTop := false
    test := true, rateLimit := 5 }

/-- Witness for C8 on the concrete test-data run. -/
theorem fetchAndProcess_sorted_witness :
    fetchAndProcessStars configC8 [] 0 [] =
      some (sortBuckets (testStars [] 0).1, 4, none) ∧
    (sortBuckets (testStars [] 0).1).map Prod.fst =
      (testStars [] 0).1.map Prod.fst ∧
    (∀ k, (mapGet (sortBuckets (testStars [] 0).1) k).Perm
            (mapGet (testStars [] 0).1 k)) ∧
    (∀ k, List.Sorted starLE (mapGet (sortBuckets (testStars [] 0).1) k)) :=
  fetchAndProcess_sorted configC8 [] 0 [] (testStars [] 0).1 4 (by decide)

/-- C10: a qualifying fetched repository whose license reduces to the empty
display name but whose raw license URL is non-empty is normalized to a
record with an empty License field whose LicenseUrl field still carries the
raw URL verbatim, and that record is what the fetch appends to the bucket of
its determined language. -/
theorem licenseUrl_preserved (ignored : List String) (edges : List Edge)
    (stars : StarMap) (total : Nat) (e : Edge)
    (hmem : e ∈ edges)
    (hpriv : e.node.isPrivate = false)
    (hign : isIgnored ignored e.node.nameWithOwner = false)
    (hlic : determineLicense e.node.licenseInfo = "")
    (_hurl : e.node.licenseInfo.url ≠ "") :
    (mkStar e).license = "" ∧
    (mkStar e).licenseUrl = e.node.licenseInfo.url ∧
    mkStar e ∈ mapGet (processEdges ignored edges stars total).1
      (determineLanguage e.node.languages) := by
  refine ⟨hlic, rfl, ?_⟩
  apply processEdges_mem _ _ _ _ _ hmem
  simp [hpriv, hign]

/-- A public repository whose license name is Other with no nickname and a
non-empty license URL. -/
def edgeC10 : Edge :=
  { starredAt := 7
    node := { description := "", languages := []
              licenseInfo := { name := "Other", nickname := ""
                               url := "https://github.com/u/r/blob/main/LICENSE" }
              isArchived := false, isPrivate := false
              name := "r", nameWithOwner := "u/r"
              stargazerCount := 3, url := "https://github.com/u/r" } }

/-- Witness for C10 on the concrete edge. -/
theorem licenseUrl_preserved_witness :
    (mkStar edgeC10).license = "" ∧
    (mkStar edgeC10).licenseUrl = edgeC10.node.licenseInfo.url ∧
    mkStar edgeC10 ∈ mapGet (processEdges [] [edgeC10] [] 0).1
      (determineLanguage edgeC10.node.languages) :=
  licenseUrl_preserved [] [edgeC10] [] 0 edgeC10 (by decide) (by decide)
    (by decide) (by decide) (by decide)

/-- The configuration of the C1 evaluation run: the test path with an empty
ignore list. -/
def configC1 : Config :=
  { githubUser := "", githubToken := "", outputFile := "README.md"
    outputFormat := "list", ignoreRepos := [], withTOC := true
    withStars := true, withLicense := true, withBackToTop := false
    test := true, rateLimit := 5 }

/-- C1, evaluated at the failing input (the test-data path with an empty
ignore list): the run returns included-count 4, yet the language buckets of
the returned mapping hold 5 records in total — and all 5 test records are
neither private nor ignored — so the returned included-count matches neither
quantity the claim equates it with. -/
theorem testPath_count_mismatch :
    fetchAndProcessStars configC1 [] 0 [] =
      some (sortBuckets (testStars [] 0).1, 4, none) ∧
    ((testStars [] 0).1.map fun p => p.2.length).sum = 5 ∧
    ((sortBuckets (testStars [] 0).1).map fun p => p.2.length).sum = 5 :=
  ⟨by decide, by decide, by decide⟩

end Stargazer
